import Mathlib

namespace TorrentManager

/-!
Verification development for the torrent-manager repository.

The server's request handlers are embedded shallowly: the database is a list
of rows, timestamps are naturals, and DB `numeric` columns together with the
JavaScript numbers that reach them are modelled as rationals (the
`toString`/`parseFloat` round-trip on such values is modelled as the
identity).  Handlers become pure functions from an input and a database state
to an `Except`/`Option` result, mirroring the TypeScript control flow.

The swarm-session design in the specification (piece layout,
`mapToFileRanges`) has no implementation in the repository; those definitions
are modelled from the spec text and are marked as such in their doc comments.
-/

/-- Decidable equality of handler results, so that concrete evaluations can
be checked by `decide`. -/
instance {ε α : Type} [DecidableEq ε] [DecidableEq α] : DecidableEq (Except ε α)
  | Except.error a, Except.error b => decidable_of_iff (a = b) (by simp)
  | Except.error _, Except.ok _ => Decidable.isFalse (fun h => Except.noConfusion h)
  | Except.ok _, Except.error _ => Decidable.isFalse (fun h => Except.noConfusion h)
  | Except.ok a, Except.ok b => decidable_of_iff (a = b) (by simp)

/-- The `torrent_status` enum of `src/server/src/schema.ts`. -/
inductive TorrentStatus where
  | downloading
  | completed
  | paused
  | error
  | seeding
deriving Repr, DecidableEq

/-- A row of `torrentsTable` (`src/server/src/schema.ts`).  Numeric columns
are rationals, timestamps are naturals. -/
structure TorrentRow where
  id : String
  user_id : String
  name : String
  info_hash : String
  magnet_link : Option String
  file_path : Option String
  total_size : Rat
  downloaded_size : Rat
  progress : Rat
  download_speed : Rat
  upload_speed : Rat
  peers : Int
  seeds : Int
  status : TorrentStatus
  created_at : Nat
  updated_at : Nat
  completed_at : Option Nat
deriving Repr, DecidableEq

/-- A row of `torrentFilesTable` (`src/server/src/schema.ts`). -/
structure TorrentFileRow where
  id : String
  torrent_id : String
  file_path : String
  file_size : Rat
  is_directory : Bool
deriving Repr, DecidableEq

/-- A row of `sessionsTable` (`src/server/src/schema.ts`). -/
structure SessionRow where
  id : String
  user_id : String
  expires_at : Nat
  created_at : Nat
deriving Repr, DecidableEq

/-- `UpdateTorrentStatusInput` (`src/server/src/schema.ts`): `status` is
required, the remaining fields are optional. -/
structure UpdateTorrentStatusInput where
  torrent_id : String
  status : TorrentStatus
  downloaded_size : Option Rat := none
  progress : Option Rat := none
  download_speed : Option Rat := none
  upload_speed : Option Rat := none
  peers : Option Int := none
  seeds : Option Int := none
deriving Repr, DecidableEq

/-- The `updateData` object built line by line in
`src/server/src/handlers/update_torrent_status.ts` (lines 12-45), applied to
one matched row: `status` and `updated_at` are always set, each optional
input field overwrites the column when provided, and `completed_at` is
stamped with the current time exactly when the incoming status is
`completed`. -/
def applyTorrentUpdate (now : Nat) (input : UpdateTorrentStatusInput)
    (r : TorrentRow) : TorrentRow :=
  { r with
    status := input.status
    updated_at := now
    downloaded_size := input.downloaded_size.getD r.downloaded_size
    progress := input.progress.getD r.progress
    download_speed := input.download_speed.getD r.download_speed
    upload_speed := input.upload_speed.getD r.upload_speed
    peers := input.peers.getD r.peers
    seeds := input.seeds.getD r.seeds
    completed_at :=
      if input.status = TorrentStatus.completed then some now else r.completed_at }

/-- Predicate of the `WHERE` clause of `updateTorrentStatus`: the row id
equals `input.torrent_id` and the row belongs to `userId`. -/
def torrentHit (torrent_id userId : String) (r : TorrentRow) : Bool :=
  r.id == torrent_id && r.user_id == userId

/-- `updateTorrentStatus` (`src/server/src/handlers/update_torrent_status.ts`):
applies `applyTorrentUpdate` to every row matching the `WHERE` clause, throws
when no row matched, and returns the new database together with
`result[0]`. -/
def updateTorrentStatus (now : Nat) (input : UpdateTorrentStatusInput)
    (userId : String) (torrents : List TorrentRow) :
    Except String (List TorrentRow × TorrentRow) :=
  match (torrents.filter (torrentHit input.torrent_id userId)).map
      (applyTorrentUpdate now input) with
  | [] => Except.error "Torrent not found or does not belong to user"
  | t :: _ =>
      Except.ok
        (torrents.map fun r =>
          if torrentHit input.torrent_id userId r then applyTorrentUpdate now input r
          else r,
         t)

/-- `logoutUser` (`src/server/src/handlers/logout.ts`): deletes every session
row whose id equals `session_id` and returns `success: true` regardless of
whether any row was found. -/
def logoutUser (session_id : String) (sessions : List SessionRow) :
    List SessionRow × Bool :=
  (sessions.filter fun s => !(s.id == session_id), true)

/-- Modelled from the spec: no piece-layout code exists in the repository;
§3 defines the piece count of a torrent as the number of piece-length tiles
covering `total_size`, i.e. `ceil(total_size / piece_length)`. -/
def pieceCount (totalSize pieceLength : Nat) : Nat :=
  (totalSize + pieceLength - 1) / pieceLength

/-- Modelled from the spec: no piece-layout code exists in the repository;
§3 defines every piece's byte length as `piece_length` except possibly the
last piece, whose length is `total_size mod piece_length`, or `piece_length`
when that remainder is zero. -/
def pieceByteLength (totalSize pieceLength index : Nat) : Nat :=
  if index + 1 = pieceCount totalSize pieceLength then
    if totalSize % pieceLength = 0 then pieceLength else totalSize % pieceLength
  else pieceLength

/-- Modelled from the spec: the clipped intersection of the piece byte range
`[pieceStart, pieceEnd)` with one file's byte range
`[fileStart, fileStart + len)`, as `(offset within file, length)`, or `none`
when they do not overlap. -/
def fileRangeAt (pieceStart pieceEnd fileStart len : Nat) :
    Option (Nat × Nat) :=
  let lo := max pieceStart fileStart
  let hi := min pieceEnd (fileStart + len)
  if lo < hi then some (lo - fileStart, hi - lo) else none

/-- Modelled from the spec: `PieceVerifier.mapToFileRanges` (§4.2) walks the
cumulative file-length sums, carrying the index and the starting global
offset of the current file, and emits the piece range clipped to each file it
overlaps, in file order. -/
def walkFileRanges (pieceStart pieceEnd : Nat) (files : List Nat)
    (fileIdx fileStart : Nat) : List (Nat × Nat × Nat) :=
  match files with
  | [] => []
  | len :: rest =>
      match fileRangeAt pieceStart pieceEnd fileStart len with
      | some r =>
          (fileIdx, r.1, r.2) ::
            walkFileRanges pieceStart pieceEnd rest (fileIdx + 1) (fileStart + len)
      | none => walkFileRanges pieceStart pieceEnd rest (fileIdx + 1) (fileStart + len)

/-- Modelled from the spec: `mapToFileRanges(index)` for a torrent with the
given piece length and ordered file lengths; the piece's global byte range is
`[index * piece_length, index * piece_length + piece_length)`. -/
def mapToFileRanges (pieceLength : Nat) (files : List Nat) (index : Nat) :
    List (Nat × Nat × Nat) :=
  walkFileRanges (index * pieceLength) (index * pieceLength + pieceLength) files 0 0

/-- Modelled from the spec: the declarative description of §4.2 — for every
file index `k`, intersect the piece's global byte range with file `k`'s range
`[sum of lengths before k, sum + length k)` and keep the nonempty clipped
ranges in file order. -/
def overlappedRanges (pieceLength : Nat) (files : List Nat) (index : Nat) :
    List (Nat × Nat × Nat) :=
  (List.range files.length).filterMap fun k =>
    (fileRangeAt (index * pieceLength) (index * pieceLength + pieceLength)
        ((files.take k).sum) (files.getD k 0)).map
      fun r => (k, r.1, r.2)

/-- A stored torrent row used in concrete evaluations: 1000 bytes total, 200
bytes downloaded, stored progress column 20, still downloading. -/
def sampleRow : TorrentRow :=
  { id := "t1", user_id := "u1", name := "linux.iso", info_hash := "aa"
    magnet_link := none, file_path := none
    total_size := 1000, downloaded_size := 200, progress := 20
    download_speed := 0, upload_speed := 0, peers := 0, seeds := 0
    status := TorrentStatus.downloading
    created_at := 1, updated_at := 1, completed_at := none }

/-- The caller input used for the progress-drift evaluation: progress 50 with
no accompanying downloaded_size. -/
def driftInput : UpdateTorrentStatusInput :=
  { torrent_id := "t1", status := TorrentStatus.downloading, progress := some 50 }

/-- `sampleRow` after `updateTorrentStatus` applied `driftInput` at time 5. -/
def driftedRow : TorrentRow :=
  { sampleRow with progress := 50, updated_at := 5 }

/-- Input applying progress 50 together with a byte counter of 7 bytes. -/
def independentInput : UpdateTorrentStatusInput :=
  { torrent_id := "t1", status := TorrentStatus.downloading,
    progress := some 50, downloaded_size := some 7 }

/-- `sampleRow` after `independentInput` was applied at time 5. -/
def independentRow : TorrentRow :=
  { sampleRow with progress := 50, downloaded_size := 7, updated_at := 5 }

/-- A torrent row with nothing downloaded and progress 0. -/
def freshRow : TorrentRow :=
  { sampleRow with downloaded_size := 0, progress := 0 }

/-- The caller input marking a torrent completed. -/
def completeInput : UpdateTorrentStatusInput :=
  { torrent_id := "t1", status := TorrentStatus.completed }

/-- `freshRow` after `completeInput` was applied at time 9. -/
def freshRowCompleted : TorrentRow :=
  { freshRow with
    status := TorrentStatus.completed
    updated_at := 9
    completed_at := some 9 }

/-! ### JavaScript semantics layer for the bencode decoder

`decodeBencode` and `parseTorrentFile`
(`src/server/src/handlers/create_torrent_from_file.ts`) operate on a `Buffer`
with JavaScript semantics: out-of-range and NaN indexing yield `undefined`,
which `String.fromCharCode` turns into the NUL character; `parseInt` can
return NaN; `Buffer.slice` clamps; `+` concatenates when a string is
involved.  Byte strings are `List Nat` of code units; a JS index is
`Option Int` with `none` for NaN; a JS number from `parseInt` is
`Option Int` with `none` for NaN. -/

/-- Byte string: latin1 code units. -/
abbrev Bytes := List Nat

/-- Code units of an ASCII literal. -/
def bytesOf (s : String) : Bytes := s.toList.map Char.toNat

/-- The value space of the bencode decoder: JS strings, numbers produced by
`parseInt`, arrays, and plain objects in property-assignment order. -/
inductive BVal where
  | str : Bytes → BVal
  | int : Option Int → BVal
  | list : List BVal → BVal
  | dict : List (Bytes × BVal) → BVal
deriving Repr

/-- Concatenate byte strings with a separator between elements. -/
def joinSep (sep : Bytes) : List Bytes → Bytes
  | [] => []
  | [x] => x
  | x :: y :: rest => x ++ sep ++ joinSep sep (y :: rest)

mutual

/-- JS `String(v)` coercion: strings stay, numbers print in decimal (NaN as
"NaN"), arrays join their elements with commas, plain objects print as
"[object Object]". -/
def jsToBytes : BVal → Bytes
  | BVal.str s => s
  | BVal.int none => bytesOf "NaN"
  | BVal.int (some n) => bytesOf (toString n)
  | BVal.list xs => joinSep (bytesOf ",") (jsToBytesList xs)
  | BVal.dict _ => bytesOf "[object Object]"

def jsToBytesList : List BVal → List Bytes
  | [] => []
  | v :: rest => jsToBytes v :: jsToBytesList rest

end

/-- Own-property lookup on a JS object built by repeated assignment: the
last assignment to a key wins.  (Prototype mutation via a literal
`__proto__` key is outside the model.) -/
def lookupProp : List (Bytes × BVal) → Bytes → Option BVal
  | [], _ => none
  | (k, v) :: rest, key =>
      match lookupProp rest key with
      | some w => some w
      | none => if k = key then some v else none

/-- `v[key]` as read by `parseTorrentFile`: own properties of plain objects,
plus the `length` property of strings and arrays; everything else is
`undefined` (`none`). -/
def getProp (v : BVal) (key : Bytes) : Option BVal :=
  match v with
  | BVal.dict entries => lookupProp entries key
  | BVal.str s =>
      if key = bytesOf "length" then some (BVal.int (some (s.length : Int))) else none
  | BVal.list xs =>
      if key = bytesOf "length" then some (BVal.int (some (xs.length : Int))) else none
  | BVal.int _ => none

/-- JS truthiness of a decoded value: empty strings, `0` and NaN are falsy;
arrays and objects are always truthy. -/
def truthyB : BVal → Bool
  | BVal.str s => !s.isEmpty
  | BVal.int none => false
  | BVal.int (some n) => n != 0
  | BVal.list _ => true
  | BVal.dict _ => true

/-- Truthiness of a possibly-`undefined` JS value. -/
def optTruthy : Option BVal → Bool
  | none => false
  | some v => truthyB v

/-- The whitespace bytes skipped by `parseInt`. -/
def isJsSpace (c : Nat) : Bool :=
  c = 9 || c = 10 || c = 11 || c = 12 || c = 13 || c = 32 || c = 160

/-- Decimal digit value. -/
def digitVal (c : Nat) : Option Nat :=
  if 48 ≤ c ∧ c ≤ 57 then some (c - 48) else none

/-- Hexadecimal digit value. -/
def hexVal (c : Nat) : Option Nat :=
  if 48 ≤ c ∧ c ≤ 57 then some (c - 48)
  else if 97 ≤ c ∧ c ≤ 102 then some (c - 87)
  else if 65 ≤ c ∧ c ≤ 70 then some (c - 55)
  else none

/-- Longest run of digits from the start of the byte string. -/
def takeDigits (dv : Nat → Option Nat) : Bytes → List Nat
  | [] => []
  | c :: rest =>
      match dv c with
      | some d => d :: takeDigits dv rest
      | none => []

/-- Value of a digit run in the given base. -/
def valOfDigits (base : Nat) (ds : List Nat) : Nat :=
  ds.foldl (fun a d => a * base + d) 0

/-- JS `parseInt(s)`: skip whitespace, optional sign, optional `0x`/`0X` hex
marker, then the longest digit run; `none` (NaN) when no digit follows. -/
def parseIntJs (s : Bytes) : Option Int :=
  let s1 := s.dropWhile isJsSpace
  let signed : Bool × Bytes :=
    match s1 with
    | 45 :: rest => (true, rest)
    | 43 :: rest => (false, rest)
    | _ => (false, s1)
  let based : Nat × Bytes :=
    match signed.2 with
    | 48 :: 120 :: rest => (16, rest)
    | 48 :: 88 :: rest => (16, rest)
    | _ => (10, signed.2)
  let ds := takeDigits (if based.1 = 16 then hexVal else digitVal) based.2
  if ds.isEmpty then none
  else
    let v : Int := Int.ofNat (valOfDigits based.1 ds)
    some (if signed.1 then -v else v)

/-- The character code of `String.fromCharCode(data[i])`: out-of-range or
NaN indexing yields `undefined`, which coerces to code 0. -/
def byteAt (data : Bytes) (i : Option Int) : Nat :=
  match i with
  | none => 0
  | some n => if n < 0 then 0 else data.getD n.toNat 0

/-- JS `i < data.length` with a possibly-NaN index (NaN compares false). -/
def jsLtLen (i : Option Int) (len : Nat) : Bool :=
  match i with
  | none => false
  | some n => n < (len : Int)

/-- JS addition of possibly-NaN integers (NaN propagates). -/
def jsAddIdx : Option Int → Option Int → Option Int
  | some a, some b => some (a + b)
  | _, _ => none

/-- Normalize one `Buffer.slice` argument: NaN coerces to 0, negative values
count from the end (clamped at 0), large values clamp to the length. -/
def jsIdxNorm (len : Nat) (v : Option Int) : Nat :=
  match v with
  | none => 0
  | some n => if n < 0 then ((len : Int) + n).toNat else min n.toNat len

/-- JS `data.slice(s, e)` (`Buffer#slice` = `subarray` index semantics). -/
def jsSlice (data : Bytes) (s e : Option Int) : Bytes :=
  (data.take (jsIdxNorm data.length e)).drop (jsIdxNorm data.length s)

/-- `data.slice(start, start + len)` as used by the string branch of the
decoder. -/
def jsSliceFrom (data : Bytes) (start len : Option Int) : Bytes :=
  jsSlice data start (jsAddIdx start len)

/-- The characters seen by a JS index loop that starts at `i` and stops at
`data.length`: positions below 0 read `undefined` (character code 0), the
rest read the bytes. -/
def charStreamFrom (data : Bytes) (i : Int) : List Nat :=
  if i < 0 then List.replicate (-i).toNat 0 ++ data else data.drop i.toNat

/-- One pass of the collection loop over the character stream: collected
characters before the stop byte, and the number of characters consumed. -/
def collectGo (stop : Nat) : List Nat → Bytes × Nat
  | [] => ([], 0)
  | c :: rest =>
      if c = stop then ([], 0)
      else
        let r := collectGo stop rest
        (c :: r.1, r.2 + 1)

/-- JS `while (index < data.length && fromCharCode(data[index]) !== stop)`
collection loop over an integer index: returns the collected bytes and the
final index (at the stop byte or at the end of the data). -/
def collectUntilInt (data : Bytes) (stop : Nat) (i : Int) : Bytes × Int :=
  let r := collectGo stop (charStreamFrom data i)
  (r.1, i + r.2)

/-- The collection loop on a possibly-NaN index: with NaN the loop body
never runs. -/
def collectUntil (data : Bytes) (stop : Nat) (i : Option Int) : Bytes × Option Int :=
  match i with
  | none => ([], none)
  | some n =>
      let r := collectUntilInt data stop n
      (r.1, some r.2)

/-- Errors of the embedded decoder/parser: `invalidBencode` is the
`Invalid bencode data` throw, `missingInfo` the `missing info section`
throw, `filesNotIterable` the TypeError raised by `for (const file of
info.files)` on a non-iterable value, and `fuelExhausted` is the modelling
artifact of the interpreter fuel (unreachable with the generous fuel used by
`decodeBencode`). -/
inductive ParseErr where
  | invalidBencode
  | missingInfo
  | filesNotIterable
  | fuelExhausted
deriving Repr, DecidableEq

mutual

/-- The `decode()` closure of `decodeBencode`
(`src/server/src/handlers/create_torrent_from_file.ts` lines 22-76), one
fuel unit per call frame: digit → length-prefixed string (length via
`parseInt`, slice with JS clamping, NaN propagating into the index);
`i` → integer via `parseInt` of the bytes before the next `e`;
`l`/`d` → element/entry loops; anything else throws. -/
def decodeB (data : Bytes) : Nat → Option Int → Except ParseErr (BVal × Option Int)
  | 0, _ => Except.error ParseErr.fuelExhausted
  | fuel + 1, i =>
    let c := byteAt data i
    if 48 ≤ c ∧ c ≤ 57 then
      let r := collectUntil data 58 i
      let i2 := jsAddIdx r.2 (some 1)
      let len := parseIntJs r.1
      Except.ok (BVal.str (jsSliceFrom data i2 len), jsAddIdx i2 len)
    else if c = 105 then
      let r := collectUntil data 101 (jsAddIdx i (some 1))
      Except.ok (BVal.int (parseIntJs r.1), jsAddIdx r.2 (some 1))
    else if c = 108 then
      decodeItems data fuel (jsAddIdx i (some 1)) []
    else if c = 100 then
      decodeEntries data fuel (jsAddIdx i (some 1)) []
    else Except.error ParseErr.invalidBencode

/-- The `while` loop of the list branch: decode elements until the index
leaves the data or hits an `e` byte, then skip that byte. -/
def decodeItems (data : Bytes) :
    Nat → Option Int → List BVal → Except ParseErr (BVal × Option Int)
  | 0, _, _ => Except.error ParseErr.fuelExhausted
  | fuel + 1, i, acc =>
    if jsLtLen i data.length && !(byteAt data i == 101) then
      match decodeB data fuel i with
      | Except.error e => Except.error e
      | Except.ok (v, i2) => decodeItems data fuel i2 (acc ++ [v])
    else Except.ok (BVal.list acc, jsAddIdx i (some 1))

/-- The `while` loop of the dictionary branch: decode a key (coerced to a
property name by `String(...)`) and a value per iteration. -/
def decodeEntries (data : Bytes) :
    Nat → Option Int → List (Bytes × BVal) → Except ParseErr (BVal × Option Int)
  | 0, _, _ => Except.error ParseErr.fuelExhausted
  | fuel + 1, i, acc =>
    if jsLtLen i data.length && !(byteAt data i == 101) then
      match decodeB data fuel i with
      | Except.error e => Except.error e
      | Except.ok (k, i1) =>
          match decodeB data fuel i1 with
          | Except.error e => Except.error e
          | Except.ok (v, i2) => decodeEntries data fuel i2 (acc ++ [(jsToBytes k, v)])
    else Except.ok (BVal.dict acc, jsAddIdx i (some 1))

end

/-- `decodeBencode` (`src/server/src/handlers/create_torrent_from_file.ts`
lines 19-79): run the decoder from index 0.  The fuel bounds the interpreter
call depth; every call frame either consumes input or produces a NaN index
that ends its enclosing loops, so the chosen fuel is never exhausted on any
actual execution path.  Trailing bytes after the decoded value are ignored,
exactly as in the source. -/
def decodeBencode (data : Bytes) : Except ParseErr (BVal × Option Int) :=
  decodeB data (4 * data.length + 16) (some 0)

/-- JS `ToPrimitive` as used by `+`: arrays and objects coerce to their
string form, strings and numbers stay. -/
def toPrim (v : BVal) : BVal :=
  match v with
  | BVal.list _ => BVal.str (jsToBytes v)
  | BVal.dict _ => BVal.str (jsToBytes v)
  | x => x

/-- JS `a + b` for decoded values: string concatenation when either primitive
is a string, numeric addition otherwise (NaN propagates). -/
def jsAdd (a b : BVal) : BVal :=
  match toPrim a, toPrim b with
  | BVal.str x, p => BVal.str (x ++ jsToBytes p)
  | p, BVal.str y => BVal.str (jsToBytes p ++ y)
  | BVal.int (some x), BVal.int (some y) => BVal.int (some (x + y))
  | _, _ => BVal.int none

/-- `file.length || 0` of one entry of `info.files`
(`create_torrent_from_file.ts` line 123). -/
def fileEntryLength (file : BVal) : BVal :=
  match getProp file (bytesOf "length") with
  | some v => if truthyB v then v else BVal.int (some 0)
  | none => BVal.int (some 0)

/-- `Array.isArray(file.path) ? file.path.join('/') : 'unknown'`
(`create_torrent_from_file.ts` line 122). -/
def fileEntryPath (file : BVal) : BVal :=
  match getProp file (bytesOf "path") with
  | some (BVal.list ps) => BVal.str (joinSep (bytesOf "/") (jsToBytesList ps))
  | _ => BVal.str (bytesOf "unknown")

/-- The multi-file loop (`create_torrent_from_file.ts` lines 121-126):
accumulates `totalSize` with JS `+=` and pushes `(path, length)` records in
order. -/
def foldFileEntries (entries : List BVal) : BVal × List (BVal × BVal) :=
  entries.foldl
    (fun acc file =>
      let fl := fileEntryLength file
      (jsAdd acc.1 fl, acc.2 ++ [(fileEntryPath file, fl)]))
    (BVal.int (some 0), [])

/-- Lines 115-132 of `parseTorrentFile`: `name = info.name || 'Unknown
Torrent'`; when `info.files` is truthy iterate it (arrays element-wise,
strings character-wise, anything else raises a TypeError), otherwise build
the single-file record `(name, info.length || 0)`.  Returns
`(name, totalSize, files)`. -/
def parseTorrentFields (info : BVal) :
    Except ParseErr (BVal × BVal × List (BVal × BVal)) :=
  let name : BVal :=
    match getProp info (bytesOf "name") with
    | some v => if truthyB v then v else BVal.str (bytesOf "Unknown Torrent")
    | none => BVal.str (bytesOf "Unknown Torrent")
  if optTruthy (getProp info (bytesOf "files")) then
    match getProp info (bytesOf "files") with
    | some (BVal.list xs) =>
        let r := foldFileEntries xs
        Except.ok (name, r.1, r.2)
    | some (BVal.str s) =>
        let r := foldFileEntries (s.map fun c => BVal.str [c])
        Except.ok (name, r.1, r.2)
    | _ => Except.error ParseErr.filesNotIterable
  else
    let fl : BVal :=
      match getProp info (bytesOf "length") with
      | some v => if truthyB v then v else BVal.int (some 0)
      | none => BVal.int (some 0)
    Except.ok (name, fl, [(name, fl)])

/-- JS `Buffer.indexOf`: position of the first occurrence of the pattern,
or -1 when absent. -/
def bytesIndexOf (data pat : Bytes) : Int :=
  match (List.range (data.length + 1)).find? (fun k => pat.isPrefixOf (data.drop k)) with
  | some k => (k : Int)
  | none => -1

/-- The depth-counting scan of `parseTorrentFile`
(`create_torrent_from_file.ts` lines 96-110): starting at `infoStart` with
`braceCount = 0`, every `d` or `l` byte increments the counter and every `e`
byte decrements it — including bytes inside bencoded string payloads —
stopping one past the `e` that brings the counter to zero; if the counter
never reaches zero the end stays at `data.length - 1`.  `infoScanGo` walks
the character stream and returns the offset of the `e` that brings the
counter to zero, if any. -/
def infoScanGo (count : Int) : List Nat → Option Nat
  | [] => none
  | c :: rest =>
      if c = 100 ∨ c = 108 then (infoScanGo (count + 1) rest).map (· + 1)
      else if c = 101 then
        if count - 1 = 0 then some 0
        else (infoScanGo (count - 1) rest).map (· + 1)
      else (infoScanGo count rest).map (· + 1)

/-- The scan's end position: one past the zero-crossing `e`, or
`data.length - 1` when the loop runs off the end of the data. -/
def infoScanLoop (data : Bytes) (i count : Int) : Int :=
  match infoScanGo count (charStreamFrom data i) with
  | some k => i + k + 1
  | none => (data.length : Int) - 1

/-- The byte buffer that `parseTorrentFile` hands to `createHash('sha1')`
(`create_torrent_from_file.ts` lines 92-113): from `indexOf('4:info') + 5`
(one before the position after the pattern) to the scan's end position. -/
def infoBufferOf (data : Bytes) : Bytes :=
  let infoStart := bytesIndexOf data (bytesOf "4:info") + 6
  let infoEnd := infoScanLoop data infoStart 0
  jsSlice data (some (infoStart - 1)) (some infoEnd)

/-- The result of `parseTorrentFile`.  `infoHash` records the exact byte
buffer handed to the external `createHash('sha1')`; the hash function itself
is stdlib code and is not modelled, so digest equality is compared at the
level of the hashed bytes. -/
structure ParsedTorrentFile where
  infoHash : Bytes
  name : BVal
  totalSize : BVal
  files : List (BVal × BVal)
deriving Repr

/-- `parseTorrentFile` (`create_torrent_from_file.ts` lines 81-143): decode,
require a truthy `info` property, hash the scanned byte range, extract
name/size/files with defaults.  No field other than `info` is required and
neither `piece length` nor `pieces` is ever read. -/
def parseTorrentFile (data : Bytes) : Except ParseErr ParsedTorrentFile :=
  match decodeBencode data with
  | Except.error e => Except.error e
  | Except.ok (decoded, _) =>
    match getProp decoded (bytesOf "info") with
    | none => Except.error ParseErr.missingInfo
    | some info =>
      if truthyB info then
        match parseTorrentFields info with
        | Except.error e => Except.error e
        | Except.ok (name, rest) =>
            Except.ok
              { infoHash := infoBufferOf data, name := name,
                totalSize := rest.1, files := rest.2 }
      else Except.error ParseErr.missingInfo

/-- The bytes of `data` at positions `[a, b)`. -/
def sliceN (data : Bytes) (a b : Nat) : Bytes := (data.take b).drop a

/-- Modelled from the spec: end position (exclusive) of a well-formed
bencoded string starting at `i` — digits, a colon, then exactly that many
bytes. -/
def benStrEnd (data : Bytes) (i : Nat) : Option Nat :=
  let ds := takeDigits digitVal (data.drop i)
  if ds.isEmpty then none
  else
    let j := i + ds.length
    match data.get? j with
    | some 58 =>
        let len := valOfDigits 10 ds
        if j + 1 + len ≤ data.length then some (j + 1 + len) else none
    | _ => none

/-- Modelled from the spec: end position of a well-formed bencoded integer
`i[-]digits e` starting at `i`. -/
def benIntEnd (data : Bytes) (i : Nat) : Option Nat :=
  let k :=
    match data.get? (i + 1) with
    | some 45 => i + 2
    | _ => i + 1
  let ds := takeDigits digitVal (data.drop k)
  if ds.isEmpty then none
  else
    match data.get? (k + ds.length) with
    | some 101 => some (k + ds.length + 1)
    | _ => none

mutual

/-- Modelled from the spec: end position (exclusive) of the well-formed
bencoded value starting at position `i`, or `none` when malformed. -/
def benEnd (data : Bytes) : Nat → Nat → Option Nat
  | 0, _ => none
  | fuel + 1, i =>
    match data.get? i with
    | none => none
    | some c =>
      if 48 ≤ c ∧ c ≤ 57 then benStrEnd data i
      else if c = 105 then benIntEnd data i
      else if c = 108 then benSeqEnd data fuel (i + 1)
      else if c = 100 then benMapEnd data fuel (i + 1)
      else none

/-- Modelled from the spec: end of a bencoded list body. -/
def benSeqEnd (data : Bytes) : Nat → Nat → Option Nat
  | 0, _ => none
  | fuel + 1, i =>
    match data.get? i with
    | none => none
    | some 101 => some (i + 1)
    | some _ =>
        match benEnd data fuel i with
        | none => none
        | some j => benSeqEnd data fuel j

/-- Modelled from the spec: end of a bencoded dictionary body (string keys,
arbitrary values). -/
def benMapEnd (data : Bytes) : Nat → Nat → Option Nat
  | 0, _ => none
  | fuel + 1, i =>
    match data.get? i with
    | none => none
    | some 101 => some (i + 1)
    | some c =>
      if 48 ≤ c ∧ c ≤ 57 then
        match benStrEnd data i with
        | none => none
        | some j =>
            match benEnd data fuel j with
            | none => none
            | some k => benMapEnd data fuel k
      else none

end

/-- Modelled from the spec: walk the entries of the top-level dictionary and
return the byte range `[start, end)` of the value whose key is `info`. -/
def infoEntriesFind (data : Bytes) : Nat → Nat → Option (Nat × Nat)
  | 0, _ => none
  | fuel + 1, i =>
    match data.get? i with
    | none => none
    | some 101 => none
    | some c =>
      if 48 ≤ c ∧ c ≤ 57 then
        match benStrEnd data i with
        | none => none
        | some j =>
            let key := sliceN data (j - valOfDigits 10 (takeDigits digitVal (data.drop i))) j
            match benEnd data (data.length + 1) j with
            | none => none
            | some k =>
                if key = bytesOf "info" then some (j, k)
                else infoEntriesFind data fuel k
      else none

/-- Modelled from the spec: the original byte range of the `info` map inside
a well-formed metainfo document (a top-level bencoded dictionary). -/
def infoValueRange (data : Bytes) : Option (Nat × Nat) :=
  match data.get? 0 with
  | some 100 => infoEntriesFind data (data.length + 1) 1
  | _ => none

/-- A well-formed single-file metainfo document:
`d4:infod6:lengthi5e4:name2:abee`. -/
def torrentW : Bytes := bytesOf "d4:infod6:lengthi5e4:name2:abee"

/-- The parse result of `torrentW`: the hashed bytes are `od6:lengthi5e` —
starting one byte early (the `o` of `4:info`) and ending at the `e` of the
key `length`, because the scan counted the `l`/`e` bytes of the key
`length` as nesting tokens. -/
def parsedW : ParsedTorrentFile :=
  { infoHash := bytesOf "od6:lengthi5e", name := BVal.str (bytesOf "ab"),
    totalSize := BVal.int (some 5),
    files := [(BVal.str (bytesOf "ab"), BVal.int (some 5))] }

/-- A metainfo document whose info map has only `name`: no `piece length`,
no `pieces`, no `length`, no `files`. -/
def torrentNoFields : Bytes := bytesOf "d4:infod4:name2:abee"

/-- `torrentNoFields` without its two closing `e` bytes: not a well-formed
bencode document. -/
def torrentTruncated : Bytes := bytesOf "d4:infod4:name2:ab"

/-- The parse result shared by `torrentNoFields` and `torrentTruncated`:
defaults substituted for everything, total size 0. -/
def parsedNoFields : ParsedTorrentFile :=
  { infoHash := bytesOf "od4:name", name := BVal.str (bytesOf "ab"),
    totalSize := BVal.int (some 0),
    files := [(BVal.str (bytesOf "ab"), BVal.int (some 0))] }

/-- The decoded value of `torrentNoFields`. -/
def decodedNoFields : BVal :=
  BVal.dict [(bytesOf "info", BVal.dict [(bytesOf "name", BVal.str (bytesOf "ab"))])]

/-- A well-formed metainfo document whose `pieces` string has 7 bytes — not
a multiple of 20 — and no piece length at all. -/
def torrentBadPieces : Bytes :=
  bytesOf "d4:infod6:lengthi5e4:name2:ab6:pieces7:AAAAAAAee"

/-- The info map decoded from `torrentBadPieces`. -/
def decodedBadPiecesInfo : List (Bytes × BVal) :=
  [(bytesOf "length", BVal.int (some 5)),
   (bytesOf "name", BVal.str (bytesOf "ab")),
   (bytesOf "pieces", BVal.str (bytesOf "AAAAAAA"))]

/-- The condition under which the `for (const file of info.files)` loop does
not raise a TypeError: whenever `info.files` is truthy it is an array or a
string. -/
def infoFilesIterable (v : BVal) : Prop :=
  ∀ info, getProp v (bytesOf "info") = some info →
    optTruthy (getProp info (bytesOf "files")) = true →
    (∃ xs, getProp info (bytesOf "files") = some (BVal.list xs)) ∨
    (∃ s, getProp info (bytesOf "files") = some (BVal.str s))

/-! ### The torrent-creation handlers and the database model -/

/-- A row of `usersTable` (`src/server/src/schema.ts`). -/
structure UserRow where
  id : String
  email : String
  name : String
  password_hash : String
  created_at : Nat
  updated_at : Nat
deriving Repr, DecidableEq

/-- The database: the four tables of `src/server/src/schema.ts`. -/
structure Db where
  users : List UserRow
  sessions : List SessionRow
  torrents : List TorrentRow
  torrentFiles : List TorrentFileRow
deriving Repr, DecidableEq

/-- `CreateTorrentFromMagnetInput` (`src/server/src/schema.ts`): `name` is
optional. -/
structure CreateTorrentFromMagnetInput where
  magnet_link : String
  name : Option String
deriving Repr, DecidableEq

/-- `CreateTorrentFromFileInput` (`src/server/src/schema.ts`). -/
structure CreateTorrentFromFileInput where
  name : String
  torrent_file_data : String
deriving Repr, DecidableEq

/-- The outcome of `parseMagnetLink`: the lower-cased 40-hex info hash and
the optional display name. -/
structure MagnetParse where
  infoHash : String
  name : Option String
deriving Repr, DecidableEq

/-- JS `v || fallback` on an optional string: the empty string is falsy. -/
def orElseStr (v : Option String) (fallback : String) : String :=
  match v with
  | some s => if s.isEmpty then fallback else s
  | none => fallback

/-- `createTorrentFromMagnet`
(`src/server/src/handlers/create_torrent_from_magnet.ts` lines 46-103).
`parseMagnetLink` (lines 8-44) wraps the Node `URL` parser, external library
code, so its outcome is the `parsed` argument; the generated `nanoid` row id
and the `defaultNow()` timestamp are the `torrentId` and `now` arguments.
The duplicate check (lines 57-65) filters on `info_hash` alone — it is not
scoped to the requesting user. -/
def createTorrentFromMagnet (parsed : Except String MagnetParse)
    (input : CreateTorrentFromMagnetInput) (userId torrentId : String)
    (now : Nat) (db : Db) : Except String (Db × TorrentRow) :=
  match parsed with
  | Except.error e => Except.error e
  | Except.ok m =>
      if (db.torrents.filter fun t => t.info_hash == m.infoHash).length > 0 then
        Except.error "Torrent with this info hash already exists"
      else
        let row : TorrentRow :=
          { id := torrentId, user_id := userId,
            name := orElseStr input.name
              (orElseStr m.name ("Torrent " ++ m.infoHash.take 8)),
            info_hash := m.infoHash, magnet_link := some input.magnet_link,
            file_path := none, total_size := 0, downloaded_size := 0,
            progress := 0, download_speed := 0, upload_speed := 0,
            peers := 0, seeds := 0, status := TorrentStatus.downloading,
            created_at := now, updated_at := now, completed_at := none }
        Except.ok ({ db with torrents := db.torrents ++ [row] }, row)

/-- The messages of the `throw`s inside `parseTorrentFile` after the
`Failed to parse torrent file:` wrapping of its catch block. -/
def parseErrMessage : ParseErr → String
  | ParseErr.invalidBencode => "Failed to parse torrent file: Invalid bencode data"
  | ParseErr.missingInfo =>
      "Failed to parse torrent file: Invalid torrent file: missing info section"
  | ParseErr.filesNotIterable =>
      "Failed to parse torrent file: info.files is not iterable"
  | ParseErr.fuelExhausted => "fuel exhausted"

/-- DB `numeric` insertion of a parsed JS size value: JavaScript integers
carry over; any other value (NaN, strings, objects — which would fail
numeric insertion at the driver) maps to 0. -/
def bvalToRat : BVal → Rat
  | BVal.int (some n) => (n : Rat)
  | _ => 0

/-- A latin1 byte string as a Lean string, for the `text` columns. -/
def stringOfBytes (b : Bytes) : String := String.mk (b.map Char.ofNat)

/-- `createTorrentFromFile`
(`src/server/src/handlers/create_torrent_from_file.ts` lines 145-246): user
check, base64 decode (lines 160-178 wrap Node Buffer code and enter as
`decodedFile`), parse, global duplicate check on the hex digest
`sha1hex` of the scanned bytes, then inserts one torrent row and one file
row per parsed file.  Generated ids and `defaultNow()` are parameters. -/
def createTorrentFromFile (sha1hex : Bytes → String)
    (decodedFile : Except String Bytes) (input : CreateTorrentFromFileInput)
    (userId torrentId : String) (fileIds : Nat → String) (now : Nat)
    (db : Db) : Except String (Db × TorrentRow) :=
  if (db.users.filter fun u => u.id == userId).length = 0 then
    Except.error "User not found"
  else
    match decodedFile with
    | Except.error e => Except.error e
    | Except.ok buf =>
        match parseTorrentFile buf with
        | Except.error e => Except.error (parseErrMessage e)
        | Except.ok parsed =>
            if (db.torrents.filter fun t =>
                t.info_hash == sha1hex parsed.infoHash).length > 0 then
              Except.error "Torrent with this info hash already exists"
            else
              let row : TorrentRow :=
                { id := torrentId, user_id := userId, name := input.name,
                  info_hash := sha1hex parsed.infoHash, magnet_link := none,
                  file_path := none, total_size := bvalToRat parsed.totalSize,
                  downloaded_size := 0, progress := 0, download_speed := 0,
                  upload_speed := 0, peers := 0, seeds := 0,
                  status := TorrentStatus.downloading,
                  created_at := now, updated_at := now, completed_at := none }
              let fileRows := parsed.files.enum.map fun kv =>
                ({ id := fileIds kv.1, torrent_id := torrentId,
                   file_path := stringOfBytes (jsToBytes kv.2.1),
                   file_size := bvalToRat kv.2.2,
                   is_directory := false } : TorrentFileRow)
              let db2 := { db with torrents := db.torrents ++ [row] }
              Except.ok
                ({ db2 with torrentFiles := db2.torrentFiles ++ fileRows }, row)

/-- At most one torrent row per info hash. -/
def uniqueHashes (ts : List TorrentRow) : Prop :=
  ts.Pairwise fun a b => a.info_hash ≠ b.info_hash

/-- A registered user for concrete evaluations. -/
def userW : UserRow :=
  { id := "u1", email := "a@b.c", name := "A", password_hash := "x",
    created_at := 0, updated_at := 0 }

/-- A stored torrent row carrying info hash `h`. -/
def rowHashH : TorrentRow := { sampleRow with id := "tH", info_hash := "h" }

/-- A database already holding a torrent with info hash `h`. -/
def dbDup : Db :=
  { users := [userW], sessions := [], torrents := [rowHashH], torrentFiles := [] }

/-- A database with no torrents. -/
def dbEmptyW : Db :=
  { users := [userW], sessions := [], torrents := [], torrentFiles := [] }

/-- A magnet parse outcome with info hash `h`. -/
def magnetDup : MagnetParse := { infoHash := "h", name := none }

/-- A magnet creation input. -/
def magnetInputW : CreateTorrentFromMagnetInput :=
  { magnet_link := "magnet:?xt=urn:btih:h", name := none }

/-- A file creation input. -/
def fileInputW : CreateTorrentFromFileInput :=
  { name := "w", torrent_file_data := "" }

/-- The torrent row created by the magnet handler on `dbEmptyW`. -/
def rowMW : TorrentRow :=
  { id := "t2", user_id := "u1", name := "Torrent h",
    info_hash := "h", magnet_link := some "magnet:?xt=urn:btih:h",
    file_path := none, total_size := 0, downloaded_size := 0, progress := 0,
    download_speed := 0, upload_speed := 0, peers := 0, seeds := 0,
    status := TorrentStatus.downloading, created_at := 3, updated_at := 3,
    completed_at := none }

/-- `dbEmptyW` after the magnet insert. -/
def db2W : Db := { dbEmptyW with torrents := [rowMW] }

/-- The torrent row created by the file handler on `dbEmptyW` from
`torrentW` with the constant digest `h`. -/
def rowFW : TorrentRow :=
  { id := "t3", user_id := "u1", name := "w",
    info_hash := "h", magnet_link := none,
    file_path := none, total_size := 5, downloaded_size := 0, progress := 0,
    download_speed := 0, upload_speed := 0, peers := 0, seeds := 0,
    status := TorrentStatus.downloading, created_at := 3, updated_at := 3,
    completed_at := none }

/-- The file row created alongside `rowFW`. -/
def fileRowW : TorrentFileRow :=
  { id := "f", torrent_id := "t3", file_path := "ab", file_size := 5,
    is_directory := false }

/-- `dbEmptyW` after the file insert. -/
def db3W : Db := { dbEmptyW with torrents := [rowFW], torrentFiles := [fileRowW] }

/-! ### The file-download handler -/

/-- `DownloadFileInput` (`src/server/src/schema.ts`). -/
structure DownloadFileInput where
  torrent_id : String
  file_path : String
deriving Repr, DecidableEq

/-- The Node `path` functions used by `downloadFile` — external library
code, passed in abstractly. -/
structure PathLib where
  normalize : String → String
  join : String → String → String
  basename : String → String
  extname : String → String

/-- The extension table of `getMimeType`
(`src/server/src/handlers/download_file.ts` lines 16-41). -/
def mimeTypesList : List (String × String) :=
  [(".txt", "text/plain"), (".html", "text/html"), (".css", "text/css"),
   (".js", "text/javascript"), (".json", "application/json"),
   (".pdf", "application/pdf"), (".zip", "application/zip"),
   (".mp4", "video/mp4"), (".avi", "video/x-msvideo"),
   (".mkv", "video/x-matroska"), (".mp3", "audio/mpeg"),
   (".wav", "audio/wav"), (".jpg", "image/jpeg"), (".jpeg", "image/jpeg"),
   (".png", "image/png"), (".gif", "image/gif"), (".svg", "image/svg+xml"),
   (".srt", "application/x-subrip"), (".vtt", "text/vtt")]

/-- `getMimeType` (`download_file.ts` lines 16-41): look up the lower-cased
extension, defaulting to `application/octet-stream`. -/
def getMimeType (extname : String → String) (fileName : String) : String :=
  match mimeTypesList.lookup (extname fileName).toLower with
  | some m => m
  | none => "application/octet-stream"

/-- The `FileDownloadResponse` of `download_file.ts`. -/
structure FileDownloadResponse where
  fileBuffer : Bytes
  fileName : String
  mimeType : String
deriving Repr, DecidableEq

/-- `downloadFile` (`src/server/src/handlers/download_file.ts` lines
43-120): in order — the torrent must exist and belong to the requesting
user; its status must be `completed`; the requested path must be a
non-directory file row of the torrent; the torrent must have a truthy
`file_path`; the normalized join must still start with the normalized
torrent directory; and the disk read (`fs`, abstract) must succeed.  Every
failure returns `null` and the handler performs no writes — it only runs
`SELECT`s and `fs.readFile`, which the pure function type reflects. -/
def downloadFile (paths : PathLib) (fs : String → Option Bytes)
    (input : DownloadFileInput) (userId : String) (db : Db) :
    Option FileDownloadResponse :=
  match db.torrents.filter (fun t => t.id == input.torrent_id && t.user_id == userId) with
  | [] => none
  | torrent :: _ =>
      if torrent.status ≠ TorrentStatus.completed then none
      else
        match db.torrentFiles.filter (fun f =>
            f.torrent_id == input.torrent_id && f.file_path == input.file_path &&
              f.is_directory == false) with
        | [] => none
        | _ :: _ =>
            match torrent.file_path with
            | none => none
            | some fp =>
                if fp.isEmpty then none
                else
                  let fullFilePath := paths.join fp input.file_path
                  if ¬ (paths.normalize fullFilePath).startsWith (paths.normalize fp) then
                    none
                  else
                    match fs fullFilePath with
                    | none => none
                    | some buf =>
                        some { fileBuffer := buf,
                               fileName := paths.basename input.file_path,
                               mimeType :=
                                 getMimeType paths.extname (paths.basename input.file_path) }

theorem walkFileRanges_eq_filterMap (ps pe : Nat) (files : List Nat) :
    ∀ (idx0 fs0 : Nat),
      walkFileRanges ps pe files idx0 fs0 =
        (List.range files.length).filterMap fun k =>
          (fileRangeAt ps pe (fs0 + (files.take k).sum) (files.getD k 0)).map
            fun r => (idx0 + k, r.1, r.2) := by
  induction files with
  | nil => intro idx0 fs0; simp [walkFileRanges]
  | cons len rest ih =>
      intro idx0 fs0
      rw [walkFileRanges]
      have hrange : List.range (rest.length + 1) =
          0 :: (List.range rest.length).map Nat.succ := List.range_succ_eq_map _
      simp only [List.length_cons, hrange, List.filterMap_cons, List.filterMap_map,
        List.take_zero, List.sum_nil, Nat.add_zero, List.getD_cons_zero]
      have htail :
          List.filterMap
            ((fun k =>
                Option.map (fun r => (idx0 + k, r.1, r.2))
                  (fileRangeAt ps pe (fs0 + ((len :: rest).take k).sum)
                    ((len :: rest).getD k 0))) ∘ Nat.succ)
            (List.range rest.length) =
          walkFileRanges ps pe rest (idx0 + 1) (fs0 + len) := by
        rw [ih (idx0 + 1) (fs0 + len)]
        apply List.filterMap_congr
        intro k _
        simp only [Function.comp_apply, List.take_succ_cons, List.sum_cons,
          List.getD_cons_succ, Nat.succ_eq_add_one, Nat.add_assoc, Nat.add_comm 1 k]
      rw [htail]
      cases h : fileRangeAt ps pe fs0 len with
      | none => simp [h]
      | some r => simp [h]

/-- C1 (counterexample): `updateTorrentStatus` stores the caller-supplied
progress of 50 into a row whose stored byte counter is 200 of 1000 bytes, so
the stored progress percentage (50) differs from
`downloaded_size / total_size * 100` (20): progress is an independently
stored column, not a value computed from verified data. -/
theorem updateTorrentStatus_progress_drifts :
    updateTorrentStatus 5 driftInput "u1" [sampleRow] =
      Except.ok ([driftedRow], driftedRow) ∧
    driftedRow.downloaded_size = 200 ∧
    driftedRow.total_size = 1000 ∧
    driftedRow.progress = 50 ∧
    driftedRow.progress ≠ driftedRow.downloaded_size / driftedRow.total_size * 100 := by
  refine ⟨by decide, by decide, by decide, by decide, ?_⟩
  show (50 : ℚ) ≠ 200 / 1000 * 100
  norm_num

/-- C1 (amended): `updateTorrentStatus` writes the caller-supplied `progress`
and `downloaded_size` verbatim into the matched row; the two stored columns
are independent and no relation to `total_size` or to any verified state is
enforced. -/
theorem updateTorrentStatus_stores_progress_independently
    (now : Nat) (input : UpdateTorrentStatusInput) (userId : String)
    (db db' : List TorrentRow) (t : TorrentRow) (p d : Rat)
    (hp : input.progress = some p) (hd : input.downloaded_size = some d)
    (h : updateTorrentStatus now input userId db = Except.ok (db', t)) :
    t.progress = p ∧ t.downloaded_size = d := by
  unfold updateTorrentStatus at h
  cases hxs : db.filter (torrentHit input.torrent_id userId) with
  | nil => rw [hxs] at h; simp at h
  | cons r rs =>
      rw [hxs] at h
      simp only [List.map_cons, Except.ok.injEq, Prod.mk.injEq] at h
      obtain ⟨-, ht⟩ := h
      subst ht
      simp [applyTorrentUpdate, hp, hd]

theorem updateTorrentStatus_stores_progress_independently_witness :
    independentRow.progress = 50 ∧ independentRow.downloaded_size = 7 :=
  updateTorrentStatus_stores_progress_independently 5 independentInput "u1"
    [sampleRow] [independentRow] independentRow 50 7 rfl rfl (by decide)

/-- C2 (counterexample): `updateTorrentStatus` marks a torrent completed and
stamps `completed_at` even though the row records zero downloaded bytes and
zero progress — completion is not gated on every piece being verified, and
this caller-driven path marks torrents complete. -/
theorem updateTorrentStatus_completes_unverified :
    freshRow.progress = 0 ∧ freshRow.downloaded_size = 0 ∧
    updateTorrentStatus 9 completeInput "u1" [freshRow] =
      Except.ok ([freshRowCompleted], freshRowCompleted) ∧
    freshRowCompleted.status = TorrentStatus.completed ∧
    freshRowCompleted.completed_at = some 9 := by
  decide

/-- C2 (amended): `updateTorrentStatus` sets the row's status to whatever
status the caller supplied, and stamps `completed_at` with the current time
whenever that status is `completed`, with no condition on progress,
downloaded bytes, or any verification state. -/
theorem updateTorrentStatus_status_from_caller
    (now : Nat) (input : UpdateTorrentStatusInput) (userId : String)
    (db db' : List TorrentRow) (t : TorrentRow)
    (h : updateTorrentStatus now input userId db = Except.ok (db', t)) :
    t.status = input.status ∧
    (input.status = TorrentStatus.completed → t.completed_at = some now) := by
  unfold updateTorrentStatus at h
  cases hxs : db.filter (torrentHit input.torrent_id userId) with
  | nil => rw [hxs] at h; simp at h
  | cons r rs =>
      rw [hxs] at h
      simp only [List.map_cons, Except.ok.injEq, Prod.mk.injEq] at h
      obtain ⟨-, ht⟩ := h
      subst ht
      refine ⟨rfl, fun hc => ?_⟩
      simp [applyTorrentUpdate, hc]

theorem updateTorrentStatus_status_from_caller_witness :
    freshRowCompleted.status = completeInput.status ∧
    (completeInput.status = TorrentStatus.completed →
      freshRowCompleted.completed_at = some 9) :=
  updateTorrentStatus_status_from_caller 9 completeInput "u1" [freshRow]
    [freshRowCompleted] freshRowCompleted (by decide)

/-- C6 (counterexample): for the spec's end-to-end scenario
(total_size 1,000,000, piece_length 262,144) the spec's own piece-layout
formula gives a last piece of 1,000,000 mod 262,144 = 213,568 bytes, not the
212,568 bytes the scenario states. -/
theorem endToEndScenario_lastPiece_mismatch :
    pieceByteLength 1000000 262144 3 = 213568 ∧
    ¬ (pieceCount 1000000 262144 = 4 ∧ pieceByteLength 1000000 262144 3 = 212568) := by
  decide

/-- C6 (amended): the scenario yields exactly 4 pieces, the first three of
length 262,144 and the last of length 213,568 bytes. -/
theorem endToEndScenario_piece_layout :
    pieceCount 1000000 262144 = 4 ∧
    pieceByteLength 1000000 262144 3 = 213568 ∧
    (∀ i, i < 3 → pieceByteLength 1000000 262144 i = 262144) := by
  decide

/-- C7: `mapToFileRanges` is a pure function of the metainfo (piece length
and ordered file lengths): for every piece index it returns exactly the
ordered nonempty intersections of the piece's global byte range
`[index*piece_length, index*piece_length+piece_length)` with the files'
prefix-sum ranges, split at file boundaries; in particular, for file lengths
[100, 150] and piece length 80, piece index 1 maps to
[(file 0, offset 80, length 20), (file 1, offset 0, length 60)]. -/
theorem mapToFileRanges_pure_intersection :
    (∀ (pieceLength : Nat) (files : List Nat) (index : Nat),
        mapToFileRanges pieceLength files index =
          overlappedRanges pieceLength files index) ∧
    mapToFileRanges 80 [100, 150] 1 = [(0, 80, 20), (1, 0, 60)] := by
  constructor
  · intro pieceLength files index
    unfold mapToFileRanges overlappedRanges
    rw [walkFileRanges_eq_filterMap]
    simp
  · decide

/-- C10: `logoutUser` always reports success, deletes every session with the
given id, and is idempotent: a second call with the same id returns the same
result and leaves the session table unchanged. -/
theorem logoutUser_idempotent_success (sessions : List SessionRow) (sid : String) :
    (logoutUser sid sessions).2 = true ∧
    (∀ s ∈ (logoutUser sid sessions).1, s.id ≠ sid) ∧
    logoutUser sid (logoutUser sid sessions).1 =
      ((logoutUser sid sessions).1, true) := by
  refine ⟨rfl, ?_, ?_⟩
  · intro s hs
    have := List.of_mem_filter hs
    simpa using this
  · unfold logoutUser
    simp [List.filter_filter]

/-- Every successful parse hashes exactly the scan-selected byte range. -/
theorem parseTorrentFile_ok_infoHash (data : Bytes) (p : ParsedTorrentFile)
    (h : parseTorrentFile data = Except.ok p) : p.infoHash = infoBufferOf data := by
  unfold parseTorrentFile at h
  cases hd : decodeBencode data with
  | error e => simp [hd] at h
  | ok vi =>
      obtain ⟨v, i⟩ := vi
      simp only [hd] at h
      cases hg : getProp v (bytesOf "info") with
      | none => simp [hg] at h
      | some info =>
          simp only [hg] at h
          cases ht : truthyB info with
          | false => simp [ht] at h
          | true =>
              rw [if_pos ht] at h
              cases hp : parseTorrentFields info with
              | error e => simp [hp] at h
              | ok nr =>
                  obtain ⟨nm, rest⟩ := nr
                  simp only [hp, Except.ok.injEq] at h
                  rw [← h]

/-- C3 (counterexample): on the well-formed input `torrentW` the bytes fed
to SHA-1 are `od6:lengthi5e` — beginning one byte before the info map and
ending inside it at the `e` of the key `length` — while the info map's
original byte range is `[7, 30)`; the computed info-hash is therefore not
the digest of the original `info` byte range. -/
theorem parseTorrentFile_hashes_wrong_range :
    parseTorrentFile torrentW = Except.ok parsedW ∧
    infoValueRange torrentW = some (7, 30) ∧
    sliceN torrentW 7 30 = bytesOf "d6:lengthi5e4:name2:abe" ∧
    parsedW.infoHash ≠ sliceN torrentW 7 30 :=
  ⟨rfl, rfl, rfl, by decide⟩

/-- C3 (amended): for every input the computed info-hash is the SHA-1 of
the byte range selected by the `indexOf('4:info')`/depth-counter scan —
`data.slice(indexOf + 5, scanEnd)` where the scan counts every `d`/`l`/`e`
byte, string payloads included — which is not in general the info map's
original byte range. -/
theorem parseTorrentFile_hashes_scanned_range (data : Bytes)
    (p : ParsedTorrentFile) (h : parseTorrentFile data = Except.ok p) :
    p.infoHash =
      jsSlice data (some (bytesIndexOf data (bytesOf "4:info") + 5))
        (some (infoScanLoop data (bytesIndexOf data (bytesOf "4:info") + 6) 0)) := by
  rw [parseTorrentFile_ok_infoHash data p h]
  have h6 : bytesIndexOf data (bytesOf "4:info") + 6 - 1 =
      bytesIndexOf data (bytesOf "4:info") + 5 := by omega
  simp only [infoBufferOf, h6]

theorem parseTorrentFile_hashes_scanned_range_witness :
    parsedW.infoHash =
      jsSlice torrentW (some (bytesIndexOf torrentW (bytesOf "4:info") + 5))
        (some (infoScanLoop torrentW (bytesIndexOf torrentW (bytesOf "4:info") + 6) 0)) :=
  parseTorrentFile_hashes_scanned_range torrentW parsedW rfl

/-- C4 (counterexample): parsing succeeds on `torrentNoFields`, whose info
map contains none of `piece length`, `pieces`, `length`, `files` (defaults
are substituted), and even on the truncated non-well-formed
`torrentTruncated`. -/
theorem parseTorrentFile_accepts_missing_fields :
    decodeBencode torrentNoFields = Except.ok (decodedNoFields, some 20) ∧
    getProp decodedNoFields (bytesOf "info") =
      some (BVal.dict [(bytesOf "name", BVal.str (bytesOf "ab"))]) ∧
    lookupProp [(bytesOf "name", BVal.str (bytesOf "ab"))] (bytesOf "piece length") = none ∧
    lookupProp [(bytesOf "name", BVal.str (bytesOf "ab"))] (bytesOf "pieces") = none ∧
    lookupProp [(bytesOf "name", BVal.str (bytesOf "ab"))] (bytesOf "length") = none ∧
    lookupProp [(bytesOf "name", BVal.str (bytesOf "ab"))] (bytesOf "files") = none ∧
    parseTorrentFile torrentNoFields = Except.ok parsedNoFields ∧
    parseTorrentFile torrentTruncated = Except.ok parsedNoFields :=
  ⟨rfl, rfl, rfl, rfl, rfl, rfl, rfl, rfl⟩

/-- C4 (amended): `parseTorrentFile` succeeds exactly when the bencode
decoder returns a value with a truthy `info` property whose `files`
property, if truthy, is iterable; absence of `piece length`, `pieces`,
`length` or `files` never causes failure, and inputs that are not
well-formed but still decode (trailing garbage, truncated dictionaries) are
accepted. -/
theorem parseTorrentFile_requires_only_info (data : Bytes) :
    (∃ p, parseTorrentFile data = Except.ok p) ↔
      (∃ v i, decodeBencode data = Except.ok (v, i) ∧
        optTruthy (getProp v (bytesOf "info")) = true ∧ infoFilesIterable v) := by
  unfold parseTorrentFile
  cases hd : decodeBencode data with
  | error e => simp
  | ok vi =>
      obtain ⟨v, i⟩ := vi
      constructor
      · rintro ⟨p, hp⟩
        cases hg : getProp v (bytesOf "info") with
        | none => simp [hg] at hp
        | some info =>
            simp only [hg] at hp
            cases ht : truthyB info with
            | false => simp [ht] at hp
            | true =>
                rw [if_pos ht] at hp
                refine ⟨v, i, rfl, by simp [hg, optTruthy, ht], ?_⟩
                intro info2 hinfo2 hft
                rw [hg] at hinfo2
                injection hinfo2 with hi2
                subst hi2
                cases hf : getProp info (bytesOf "files") with
                | none => rw [hf] at hft; simp [optTruthy] at hft
                | some fv =>
                    cases fv with
                    | str s => exact Or.inr ⟨s, rfl⟩
                    | list xs => exact Or.inl ⟨xs, rfl⟩
                    | int n =>
                        rw [hf] at hft
                        simp [parseTorrentFields, hf, hft] at hp
                    | dict es =>
                        rw [hf] at hft
                        simp [parseTorrentFields, hf, hft] at hp
      · rintro ⟨v2, i2, hv2, htruthy, hfiles⟩
        injection hv2 with hv2
        injection hv2 with hv2 hi2
        subst hv2
        cases hg : getProp v (bytesOf "info") with
        | none => rw [hg] at htruthy; simp [optTruthy] at htruthy
        | some info =>
            rw [hg] at htruthy
            have ht : truthyB info = true := htruthy
            simp only [hg]
            rw [if_pos ht]
            cases hfo : optTruthy (getProp info (bytesOf "files")) with
            | false =>
                simp only [parseTorrentFields, hfo, Bool.false_eq_true, if_false]
                exact ⟨_, rfl⟩
            | true =>
                rcases hfiles info hg hfo with ⟨xs, hxs⟩ | ⟨s, hs⟩
                · rw [hxs] at hfo
                  simp [parseTorrentFields, hxs, hfo]
                · rw [hs] at hfo
                  simp [parseTorrentFields, hs, hfo]

/-- C5 (counterexample): `torrentBadPieces` carries a 7-byte `pieces` string
— 7 is not a multiple of 20 — and no `piece length`, yet `parseTorrentFile`
accepts it; no pieces-related validation exists. -/
theorem parseTorrentFile_accepts_bad_pieces :
    decodeBencode torrentBadPieces =
      Except.ok (BVal.dict [(bytesOf "info", BVal.dict decodedBadPiecesInfo)], some 48) ∧
    lookupProp decodedBadPiecesInfo (bytesOf "pieces") =
      some (BVal.str (bytesOf "AAAAAAA")) ∧
    (bytesOf "AAAAAAA").length = 7 ∧
    ¬ (7 % 20 = 0) ∧
    parseTorrentFile torrentBadPieces = Except.ok parsedW :=
  ⟨rfl, rfl, rfl, by decide, rfl⟩

/-- Appending an entry to a JS object affects lookups only at that key. -/
theorem lookupProp_append (xs : List (Bytes × BVal)) (k : Bytes) (v : BVal)
    (key : Bytes) :
    lookupProp (xs ++ [(k, v)]) key =
      if k = key then some v else lookupProp xs key := by
  induction xs with
  | nil => simp [lookupProp]
  | cons e rest ih =>
      obtain ⟨k0, v0⟩ := e
      by_cases hk : k = key
      · subst hk
        simp [List.cons_append, lookupProp, ih]
      · simp [List.cons_append, lookupProp, ih, hk]

/-- C5 (amended): the extracted fields are independent of any `pieces` or
`piece length` entry of the info map: adding either entry changes nothing
in the result of the field extraction — `parseTorrentFile` performs no check
on `pieces` or the piece count at all. -/
theorem parseTorrentFields_ignores_pieces (entries : List (Bytes × BVal))
    (pv plv : BVal) :
    parseTorrentFields (BVal.dict (entries ++ [(bytesOf "pieces", pv)])) =
      parseTorrentFields (BVal.dict entries) ∧
    parseTorrentFields (BVal.dict (entries ++ [(bytesOf "piece length", plv)])) =
      parseTorrentFields (BVal.dict entries) := by
  constructor
  · have h : ∀ key, bytesOf "pieces" ≠ key →
        getProp (BVal.dict (entries ++ [(bytesOf "pieces", pv)])) key =
          getProp (BVal.dict entries) key := by
      intro key hk
      simp [getProp, lookupProp_append, hk]
    unfold parseTorrentFields
    rw [h (bytesOf "name") (by decide), h (bytesOf "files") (by decide),
      h (bytesOf "length") (by decide)]
  · have h : ∀ key, bytesOf "piece length" ≠ key →
        getProp (BVal.dict (entries ++ [(bytesOf "piece length", plv)])) key =
          getProp (BVal.dict entries) key := by
      intro key hk
      simp [getProp, lookupProp_append, hk]
    unfold parseTorrentFields
    rw [h (bytesOf "name") (by decide), h (bytesOf "files") (by decide),
      h (bytesOf "length") (by decide)]

theorem uniqueHashes_append (ts : List TorrentRow) (row : TorrentRow)
    (huniq : uniqueHashes ts) (hnew : ∀ t ∈ ts, t.info_hash ≠ row.info_hash) :
    uniqueHashes (ts ++ [row]) := by
  rw [uniqueHashes, List.pairwise_append]
  refine ⟨huniq, List.pairwise_singleton _ _, ?_⟩
  intro a ha b hb
  simp only [List.mem_singleton] at hb
  subst hb
  exact hnew a ha

theorem not_pos_filter_hash (ts : List TorrentRow) (h : String)
    (hnp : ¬ 0 < (ts.filter fun t => t.info_hash == h).length) :
    ∀ t ∈ ts, t.info_hash ≠ h := by
  intro t ht he
  have hmem : t ∈ ts.filter fun t => t.info_hash == h :=
    List.mem_filter.mpr ⟨ht, by simp [he]⟩
  exact hnp (List.length_pos.mpr (List.ne_nil_of_mem hmem))

theorem pos_filter_hash (ts : List TorrentRow) (h : String) (t : TorrentRow)
    (ht : t ∈ ts) (he : t.info_hash = h) :
    (ts.filter fun t => t.info_hash == h).length > 0 :=
  List.length_pos.mpr (List.ne_nil_of_mem (List.mem_filter.mpr ⟨ht, by simp [he]⟩))

/-- C8: info hashes are globally unique across users.  Both creation
handlers refuse to insert whenever any torrent row — whoever owns it —
already carries the same info hash, throwing
`Torrent with this info hash already exists`; and both preserve the
at-most-one-row-per-info-hash invariant on every successful insert. -/
theorem infoHash_globally_unique :
    (∀ (m : MagnetParse) (input : CreateTorrentFromMagnetInput)
        (userId torrentId : String) (now : Nat) (db : Db) (t : TorrentRow),
        t ∈ db.torrents → t.info_hash = m.infoHash →
        createTorrentFromMagnet (Except.ok m) input userId torrentId now db =
          Except.error "Torrent with this info hash already exists") ∧
    (∀ (sha1hex : Bytes → String) (buf : Bytes)
        (input : CreateTorrentFromFileInput) (userId torrentId : String)
        (fileIds : Nat → String) (now : Nat) (db : Db) (p : ParsedTorrentFile)
        (t : TorrentRow),
        ¬ (db.users.filter fun u => u.id == userId).length = 0 →
        parseTorrentFile buf = Except.ok p →
        t ∈ db.torrents → t.info_hash = sha1hex p.infoHash →
        createTorrentFromFile sha1hex (Except.ok buf) input userId torrentId
            fileIds now db =
          Except.error "Torrent with this info hash already exists") ∧
    (∀ (parsed : Except String MagnetParse)
        (input : CreateTorrentFromMagnetInput) (userId torrentId : String)
        (now : Nat) (db db2 : Db) (trow : TorrentRow),
        uniqueHashes db.torrents →
        createTorrentFromMagnet parsed input userId torrentId now db =
          Except.ok (db2, trow) →
        uniqueHashes db2.torrents) ∧
    (∀ (sha1hex : Bytes → String) (decodedFile : Except String Bytes)
        (input : CreateTorrentFromFileInput) (userId torrentId : String)
        (fileIds : Nat → String) (now : Nat) (db db2 : Db) (trow : TorrentRow),
        uniqueHashes db.torrents →
        createTorrentFromFile sha1hex decodedFile input userId torrentId
            fileIds now db = Except.ok (db2, trow) →
        uniqueHashes db2.torrents) := by
  refine ⟨?_, ?_, ?_, ?_⟩
  · intro m input userId torrentId now db t ht he
    simp only [createTorrentFromMagnet]
    rw [if_pos (pos_filter_hash db.torrents m.infoHash t ht he)]
  · intro sha1hex buf input userId torrentId fileIds now db p t huser hparse ht he
    simp only [createTorrentFromFile]
    rw [if_neg huser]
    simp only [hparse]
    rw [if_pos (pos_filter_hash db.torrents (sha1hex p.infoHash) t ht he)]
  · intro parsed input userId torrentId now db db2 trow huniq hok
    cases parsed with
    | error e => simp [createTorrentFromMagnet] at hok
    | ok m =>
        simp only [createTorrentFromMagnet] at hok
        by_cases hdup : (db.torrents.filter fun t => t.info_hash == m.infoHash).length > 0
        · rw [if_pos hdup] at hok; simp at hok
        · rw [if_neg hdup] at hok
          simp only [Except.ok.injEq, Prod.mk.injEq] at hok
          obtain ⟨hdb, -⟩ := hok
          rw [← hdb]
          exact uniqueHashes_append _ _ huniq
            (fun t ht he => not_pos_filter_hash db.torrents m.infoHash hdup t ht he)
  · intro sha1hex decodedFile input userId torrentId fileIds now db db2 trow huniq hok
    by_cases huser : (db.users.filter fun u => u.id == userId).length = 0
    · simp [createTorrentFromFile, huser] at hok
    · cases decodedFile with
      | error e => simp [createTorrentFromFile, huser] at hok
      | ok buf =>
          cases hparse : parseTorrentFile buf with
          | error e => simp [createTorrentFromFile, huser, hparse] at hok
          | ok parsed =>
              simp only [createTorrentFromFile] at hok
              rw [if_neg huser] at hok
              simp only [hparse] at hok
              by_cases hdup : (db.torrents.filter fun t =>
                  t.info_hash == sha1hex parsed.infoHash).length > 0
              · rw [if_pos hdup] at hok; simp at hok
              · rw [if_neg hdup] at hok
                simp only [Except.ok.injEq, Prod.mk.injEq] at hok
                obtain ⟨hdb, -⟩ := hok
                rw [← hdb]
                exact uniqueHashes_append _ _ huniq
                  (fun t ht he =>
                    not_pos_filter_hash db.torrents (sha1hex parsed.infoHash) hdup t ht he)

theorem infoHash_globally_unique_witness :
    (createTorrentFromMagnet (Except.ok magnetDup) magnetInputW "u1" "t2" 3 dbDup =
      Except.error "Torrent with this info hash already exists") ∧
    (createTorrentFromFile (fun _ => "h") (Except.ok torrentW) fileInputW "u1"
        "t2" (fun _ => "f") 3 dbDup =
      Except.error "Torrent with this info hash already exists") ∧
    uniqueHashes db2W.torrents ∧
    uniqueHashes db3W.torrents :=
  ⟨infoHash_globally_unique.1 magnetDup magnetInputW "u1" "t2" 3 dbDup rowHashH
      (by decide) rfl,
   infoHash_globally_unique.2.1 (fun _ => "h") torrentW fileInputW "u1" "t2"
      (fun _ => "f") 3 dbDup parsedW rowHashH (by decide) rfl (by decide) rfl,
   infoHash_globally_unique.2.2.1 (Except.ok magnetDup) magnetInputW "u1" "t2" 3
      dbEmptyW db2W rowMW (by simp [uniqueHashes, dbEmptyW]) rfl,
   infoHash_globally_unique.2.2.2 (fun _ => "h") (Except.ok torrentW) fileInputW
      "u1" "t3" (fun _ => "f") 3 dbEmptyW db3W rowFW
      (by simp [uniqueHashes, dbEmptyW]) rfl⟩

/-- C9: `downloadFile` returns a file exactly when all of the following
hold — the torrent is the user's, completed, the requested path is a
non-directory file row of it, a nonempty `file_path` is set, the normalized
join stays inside the normalized torrent directory, and the disk read
succeeds; in every other case it returns `null` without distinguishing the
causes, and it never modifies stored state (its type consumes the database
read-only). -/
theorem downloadFile_some_iff (paths : PathLib) (fs : String → Option Bytes)
    (input : DownloadFileInput) (userId : String) (db : Db) :
    (downloadFile paths fs input userId db).isSome = true ↔
      ∃ torrent,
        (db.torrents.filter fun t =>
            t.id == input.torrent_id && t.user_id == userId).head? = some torrent ∧
        torrent.status = TorrentStatus.completed ∧
        (db.torrentFiles.filter fun f =>
            f.torrent_id == input.torrent_id && f.file_path == input.file_path &&
              f.is_directory == false) ≠ [] ∧
        ∃ fp, torrent.file_path = some fp ∧ ¬ fp.isEmpty ∧
          (paths.normalize (paths.join fp input.file_path)).startsWith
            (paths.normalize fp) = true ∧
          (fs (paths.join fp input.file_path)).isSome = true := by
  unfold downloadFile
  constructor
  · intro hsome
    split at hsome
    · simp at hsome
    · rename_i torrent rest h1
      split at hsome
      · simp at hsome
      · rename_i h2
        split at hsome
        · simp at hsome
        · rename_i frow frest h3
          split at hsome
          · simp at hsome
          · rename_i fp h4
            split at hsome
            · simp at hsome
            · rename_i h5
              simp only [] at hsome
              split at hsome
              · simp at hsome
              · rename_i h6
                split at hsome
                · simp at hsome
                · rename_i buf h7
                  refine ⟨torrent, ?_, ?_, ?_, fp, h4, h5, ?_, ?_⟩
                  · rw [h1]; rfl
                  · simpa using h2
                  · rw [h3]; simp
                  · simpa using h6
                  · rw [h7]; rfl
  · rintro ⟨torrent, hhead, hstat, hfiles, fp, hfp, hne, hsw, hread⟩
    split
    · rename_i h1
      rw [h1] at hhead; simp at hhead
    · rename_i t2 rest h1
      rw [h1] at hhead
      simp only [List.head?_cons, Option.some.injEq] at hhead
      subst hhead
      split
      · rename_i h2
        exact absurd hstat h2
      · rename_i h2
        split
        · rename_i h3
          exact absurd h3 hfiles
        · rename_i f2 rest3 h3
          split
          · rename_i h4
            rw [h4] at hfp; simp at hfp
          · rename_i fp2 h4
            rw [h4] at hfp
            simp only [Option.some.injEq] at hfp
            subst hfp
            split
            · rename_i h5
              exact absurd h5 hne
            · rename_i h5
              simp only []
              split
              · rename_i h6
                exact absurd hsw h6
              · rename_i h6
                split
                · rename_i h7
                  rw [h7] at hread; simp at hread
                · rename_i buf h7
                  rfl

end TorrentManager
